import Mathlib

/-!
Verification of the natural-language specification of `libstempo/toasim.py`
against a shallow embedding of the source in Lean 4.

Conventions of the embedding:
* numpy double arithmetic is modelled by exact real arithmetic over `ℝ`;
  where the source divides by zero or takes `log 0`, the accompanying
  comments record what IEEE arithmetic produces there (`inf`/`NaN`);
* numpy length-3 arrays of floats are a `Vec3`; `N.dot`/`N.sum(a*b)` is `dot`;
* a `tempopulsar` is reduced to the slice of its interface that the source
  reads: `psr['RAJ'].val`, `psr['DECJ'].val` (radians) and `psr.toas()`
  (an array of MJD epochs, in days);
* vectorized numpy expressions over the epoch array become `List.map`;
* the global numpy pseudo-random generator is modelled as an infinite stream
  `ℕ → ℝ` of upcoming standard-normal draws, together with a reseeding
  function `ℤ → ℕ → ℝ` giving the stream installed by `N.random.seed`.
-/

namespace Toasim

/-- A numpy length-3 real vector. -/
structure Vec3 where
  x : ℝ
  y : ℝ
  z : ℝ

/-- `N.dot` (equivalently `N.sum(a*b)`) for length-3 arrays. -/
noncomputable def dot (a b : Vec3) : ℝ := a.x * b.x + a.y * b.y + a.z * b.z

/-- The slice of the tempopulsar interface used by `toasim.py`: sky position
`psr['RAJ'].val`, `psr['DECJ'].val` (radians) and the epochs `psr.toas()` (days). -/
structure Pulsar where
  raj : ℝ
  decj : ℝ
  toas : List ℝ

instance : Inhabited Pulsar := ⟨⟨0, 0, []⟩⟩

/-- Pulsar sky direction as built inside `computeORFMatrix`
(source lines 523-533): `ptheta = pi/2 - DECJ`, `pphi = RAJ`,
`phat = (cos pphi * sin ptheta, sin pphi * sin ptheta, cos ptheta)`. -/
noncomputable def orfDir (p : Pulsar) : Vec3 :=
  let ptheta := Real.pi / 2 - p.decj
  let pphi := p.raj
  ⟨Real.cos pphi * Real.sin ptheta, Real.sin pphi * Real.sin ptheta, Real.cos ptheta⟩

/-- Entry `(ll, kk)` of the matrix built by `computeORFMatrix`
(source lines 506-541): for `ll ≠ kk`, `xip = (1 - phati·phatj)/2` and the
entry is `3*(1/3 + xip*(log xip - 1/6))`; on the diagonal the entry is `2`.
The source has no guard for coincident directions: at `xip = 0` numpy
evaluates `log(0.) = -inf` (a warning, not an exception) and
`0*(-inf) = NaN`, and the entry is stored silently. -/
noncomputable def computeORFMatrix (psr : List Pulsar) (ll kk : ℕ) : ℝ :=
  let phati := orfDir (psr.getD ll default)
  let phatj := orfDir (psr.getD kk default)
  if ll ≠ kk then
    let xip := (1 - dot phati phatj) / 2
    3 * (1/3 + xip * (Real.log xip - 1/6))
  else 2

/-- `add_cgw`, source line 310: `m = [-singwphi, cosgwphi, 0]`. -/
noncomputable def cgwM (gwtheta gwphi : ℝ) : Vec3 :=
  ⟨-Real.sin gwphi, Real.cos gwphi, 0⟩

/-- `add_cgw`, source line 311:
`n = [-cosgwtheta*cosgwphi, -cosgwtheta*singwphi, singwtheta]`. -/
noncomputable def cgwN (gwtheta gwphi : ℝ) : Vec3 :=
  ⟨-Real.cos gwtheta * Real.cos gwphi, -Real.cos gwtheta * Real.sin gwphi, Real.sin gwtheta⟩

/-- `add_cgw`, source line 312:
`omhat = [-singwtheta*cosgwphi, -singwtheta*singwphi, -cosgwtheta]`. -/
noncomputable def cgwOmhat (gwtheta gwphi : ℝ) : Vec3 :=
  ⟨-Real.sin gwtheta * Real.cos gwphi, -Real.sin gwtheta * Real.sin gwphi, -Real.cos gwtheta⟩

/-- `add_cgw`, source lines 320-325: pulsar direction with
`ptheta = pi/2 - DECJ`, `pphi = RAJ`. -/
noncomputable def cgwPhat (p : Pulsar) : Vec3 :=
  let ptheta := Real.pi / 2 - p.decj
  let pphi := p.raj
  ⟨Real.sin ptheta * Real.cos pphi, Real.sin ptheta * Real.sin pphi, Real.cos ptheta⟩

/-- `add_cgw`, source line 327:
`fplus = 0.5 * (dot(m,phat)**2 - dot(n,phat)**2) / (1 + dot(omhat,phat))`.
The division is unguarded in the source. -/
noncomputable def cgwFplus (p : Pulsar) (gwtheta gwphi : ℝ) : ℝ :=
  0.5 * ((dot (cgwM gwtheta gwphi) (cgwPhat p)) ^ 2 - (dot (cgwN gwtheta gwphi) (cgwPhat p)) ^ 2)
    / (1 + dot (cgwOmhat gwtheta gwphi) (cgwPhat p))

/-- `add_cgw`, source line 328:
`fcross = (dot(m,phat)*dot(n,phat)) / (1 + dot(omhat,phat))`. -/
noncomputable def cgwFcross (p : Pulsar) (gwtheta gwphi : ℝ) : ℝ :=
  (dot (cgwM gwtheta gwphi) (cgwPhat p) * dot (cgwN gwtheta gwphi) (cgwPhat p))
    / (1 + dot (cgwOmhat gwtheta gwphi) (cgwPhat p))

/-- `add_cgw`, source line 329: `cosMu = -dot(omhat, phat)`. -/
noncomputable def cgwCosMu (p : Pulsar) (gwtheta gwphi : ℝ) : ℝ :=
  -(dot (cgwOmhat gwtheta gwphi) (cgwPhat p))

/-- `add_cgw`, source lines 346-377: the three evolution policies, at one
epoch.  Arguments: the two flags, `w0 = pi*fgw`, `w053 = w0**(-5/3)`,
`fac1`, `fac2` (lines 315-316), the orbital phase `phase0` (the input
`phase0` already divided by 2, line 300), the pulsar distance `pd` in
seconds, `cosMu`, the epoch `t` (seconds past `tref`) and the pulsar time
`tp`.  Returns `(omega, omega_p, phase, phase_p)`. -/
noncomputable def cgwOmegaPhase (evolve phase_approx : Bool)
    (w0 w053 fac1 fac2 phase0 pd cosMu t tp : ℝ) : ℝ × ℝ × ℝ × ℝ :=
  if evolve then
    let omega := w0 * (1 - fac1 * t) ^ (-(3:ℝ)/8)
    let omega_p := w0 * (1 - fac1 * tp) ^ (-(3:ℝ)/8)
    (omega, omega_p,
     phase0 + fac2 * (w053 - omega ^ (-(5:ℝ)/3)),
     phase0 + fac2 * (w053 - omega_p ^ (-(5:ℝ)/3)))
  else if phase_approx then
    let omega := w0
    let omega_p := w0 * (1 + fac1 * pd * (1 - cosMu)) ^ (-(3:ℝ)/8)
    (omega, omega_p,
     phase0 + omega * t,
     phase0 + fac2 * (w053 - omega_p ^ (-(5:ℝ)/3)) + omega_p * t)
  else
    let omega := w0
    let omega_p := omega
    (omega, omega_p, phase0 + omega * t, phase0 + omega * tp)

/-- `add_cgw`, source lines 381-394 collapsed: the plus-polarization
projection `rplus = alpha * (At*cos2psi - Bt*sin2psi)` with
`alpha = fac3/omega**(1/3)`, `At = sin(2*phase)*incfac1`,
`Bt = cos(2*phase)*incfac2`. -/
noncomputable def cgwRplus (fac3 incfac1 incfac2 cos2psi sin2psi omega phase : ℝ) : ℝ :=
  fac3 / omega ^ ((1:ℝ)/3) *
    (Real.sin (2*phase) * incfac1 * cos2psi - Real.cos (2*phase) * incfac2 * sin2psi)

/-- `add_cgw`, source lines 381-394 collapsed: the cross-polarization
projection `rcross = alpha * (At*sin2psi + Bt*cos2psi)`. -/
noncomputable def cgwRcross (fac3 incfac1 incfac2 cos2psi sin2psi omega phase : ℝ) : ℝ :=
  fac3 / omega ^ ((1:ℝ)/3) *
    (Real.sin (2*phase) * incfac1 * sin2psi + Real.cos (2*phase) * incfac2 * cos2psi)

/-- `add_cgw`, source lines 294-394: everything feeding the residual at one
epoch `t0` (days): unit conversions (lines 295-296, 341), derived constants
(lines 299-316), pulsar distance (lines 334-341), pulsar time (line 344),
the evolution policy (lines 346-377) and the four waveform projections
(lines 381-394).  Returns `(rplus, rcross, rplus_p, rcross_p)`. -/
noncomputable def cgwProjections (p : Pulsar) (gwtheta gwphi mc dist fgw phase0 psi inc pdist : ℝ)
    (pphase : Option ℝ) (evolve phase_approx : Bool) (tref : ℝ) (t0 : ℝ) : ℝ × ℝ × ℝ × ℝ :=
  let mc2 := mc * 4.9e-6
  let dist2 := dist * 1.0267e14
  let w0 := Real.pi * fgw
  let phase02 := phase0 / 2
  let w053 := w0 ^ (-(5:ℝ)/3)
  let sin2psi := Real.sin (2*psi)
  let cos2psi := Real.cos (2*psi)
  let incfac1 := -0.5 * (3 + Real.cos (2*inc))
  let incfac2 := 2 * Real.cos inc
  let fac1 := 256/5 * mc2 ^ ((5:ℝ)/3) * w0 ^ ((8:ℝ)/3)
  let fac2 := 1/32 / mc2 ^ ((5:ℝ)/3)
  let fac3 := mc2 ^ ((5:ℝ)/3) / dist2
  let cosMu := cgwCosMu p gwtheta gwphi
  let t := t0 * 86400 - tref
  let pd0 := match pphase with
    | some pp => pp / (2 * Real.pi * fgw * (1 - cosMu)) / 1.0267e11
    | none => pdist
  let pd := pd0 * 1.0267e11
  let tp := t - pd * (1 - cosMu)
  let op := cgwOmegaPhase evolve phase_approx w0 w053 fac1 fac2 phase02 pd cosMu t tp
  (cgwRplus fac3 incfac1 incfac2 cos2psi sin2psi op.1 op.2.2.1,
   cgwRcross fac3 incfac1 incfac2 cos2psi sin2psi op.1 op.2.2.1,
   cgwRplus fac3 incfac1 incfac2 cos2psi sin2psi op.2.1 op.2.2.2,
   cgwRcross fac3 incfac1 incfac2 cos2psi sin2psi op.2.1 op.2.2.2)

/-- `add_cgw` (source lines 269-402).  Returns the vector `res` of induced
residuals (seconds), one per epoch of `psr.toas()`; the source then performs
`psr.stoas[:] += res/86400`.  Combination of the projections per line
396-400: with the pulsar term, `fplus*(rplus_p-rplus)+fcross*(rcross_p-rcross)`;
without it, `-fplus*rplus - fcross*rcross`. -/
noncomputable def add_cgw (p : Pulsar) (gwtheta gwphi mc dist fgw phase0 psi inc pdist : ℝ)
    (pphase : Option ℝ) (psrTerm evolve phase_approx : Bool) (tref : ℝ) : List ℝ :=
  p.toas.map (fun t0 =>
    let pr := cgwProjections p gwtheta gwphi mc dist fgw phase0 psi inc pdist pphase
      evolve phase_approx tref t0
    if psrTerm then
      cgwFplus p gwtheta gwphi * (pr.2.2.1 - pr.1) +
        cgwFcross p gwtheta gwphi * (pr.2.2.2 - pr.2.1)
    else
      -(cgwFplus p gwtheta gwphi) * pr.1 - cgwFcross p gwtheta gwphi * pr.2.1)

/-- `N.min` of a list of reals (meaningful on non-empty input; numpy raises on
an empty array, the `[]` case is junk). -/
noncomputable def listMin : List ℝ → ℝ
  | [] => 0
  | [a] => a
  | a :: b :: r => min a (listMin (b :: r))

/-- `N.max` of a list of reals (meaningful on non-empty input). -/
noncomputable def listMax : List ℝ → ℝ
  | [] => 0
  | [a] => a
  | a :: b :: r => max a (listMax (b :: r))

/-- `createGWB_clean`, source line 435:
`start = N.min([p.toas().min()*86400 for p in psr]) - 86400`. -/
noncomputable def gwbStart (psr : List Pulsar) : ℝ :=
  listMin (psr.map (fun p => listMin p.toas * 86400)) - 86400

/-- `createGWB_clean`, source line 436:
`stop = N.max([p.toas().max()*86400 for p in psr]) + 86400`. -/
noncomputable def gwbStop (psr : List Pulsar) : ℝ :=
  listMax (psr.map (fun p => listMax p.toas * 86400)) + 86400

/-- `createGWB_clean`, source line 439: `dur = stop - start`. -/
noncomputable def gwbDur (psr : List Pulsar) : ℝ := gwbStop psr - gwbStart psr

/-- `N.arange(0, stop, step)` over exact reals, for positive `step`:
the values `k*step` for natural `k` with `k*step < stop`. -/
noncomputable def arange (stop step : ℝ) : List ℝ :=
  (List.range (Nat.ceil (stop / step))).map (fun (k : ℕ) => (k : ℝ) * step)

/-- `createGWB_clean`, source lines 458-461:
`f = N.arange(0, 1/(2*dt), 1/(dur*howml)); f[0] = f[1]`, with
`dt = dur/npts` (line 450). -/
noncomputable def gwbF (psr : List Pulsar) (npts howml : ℕ) : List ℝ :=
  let dur := gwbDur psr
  let dt := dur / npts
  let f := arange (1 / (2*dt)) (1 / (dur * (howml : ℝ)))
  f.set 0 (f.getD 1 0)

/-- Model of the external collaborator `numpy.linalg.cholesky` (lower
triangular factor) via the standard recurrence, with a fuel argument to make
the recursion structural; `cholesky` below supplies enough fuel for all
indices below the matrix dimension. -/
noncomputable def cholAux (A : ℕ → ℕ → ℝ) : ℕ → ℕ → ℕ → ℝ
  | 0, _, _ => 0
  | fuel+1, i, j =>
    if i < j then 0
    else if i = j then
      Real.sqrt (A i i - ∑ k ∈ Finset.range i, cholAux A fuel i k ^ 2)
    else
      (A i j - ∑ k ∈ Finset.range j, cholAux A fuel i k * cholAux A fuel j k) /
        cholAux A fuel j j

/-- Model of `numpy.linalg.cholesky` on an `n × n` matrix given as a function. -/
noncomputable def cholesky (A : ℕ → ℕ → ℝ) (n : ℕ) : ℕ → ℕ → ℝ :=
  fun i j => cholAux A (2*n + 2) i j

/-- Model of the external collaborator `numpy.fft.ifft` at output index `j`:
`(1/n) * Σ_k x_k * exp(2*pi*I*j*k/n)` with `n` the input length. -/
noncomputable def ifftPoint (xl : List ℂ) (j : ℕ) : ℂ :=
  (∑ k ∈ Finset.range xl.length,
    xl.getD k 0 * Complex.exp (2 * (Real.pi : ℂ) * Complex.I * (j : ℂ) * (k : ℂ) / (xl.length : ℂ)))
    / (xl.length : ℂ)

/-- Model of the external collaborator `numpy.linspace a b n` (endpoint
included, spacing `(b-a)/(n-1)`). -/
noncomputable def linspace (a b : ℝ) (n : ℕ) : List ℝ :=
  (List.range n).map (fun (i : ℕ) => a + (i : ℝ) * ((b - a) / ((n : ℝ) - 1)))

/-- Model of the external collaborator `scipy.interpolate.interp1d`
(`kind='linear'`) evaluated at `x`, specialized to an evenly spaced
abscissa grid `a + k*h` with ordinate values `ys k`. -/
noncomputable def interpGrid (a h : ℝ) (ys : ℕ → ℝ) (x : ℝ) : ℝ :=
  let i := (⌊(x - a) / h⌋).toNat
  ys i + ((x - a) / h - i) * (ys (i+1) - ys i)

/-- `createGWB_clean` (source lines 405-504).  The global numpy generator is
modelled by the stream `g0 : ℕ → ℝ` of upcoming standard-normal draws and
the reseeding function `seedFn`: `N.random.seed(s)` (line 429) replaces the
global stream by `seedFn s`, and `N.random.randn` consumes draws from the
front of the stream.  The draws are consumed in pulsar-major order
(lines 469-470): pulsar `ll` takes its `Nf` real parts at stream positions
`2*Nf*ll, ..., 2*Nf*ll + Nf - 1` and its `Nf` imaginary parts at positions
`2*Nf*ll + Nf, ..., 2*Nf*(ll+1) - 1`.  `npts` is taken as given (the
`npts is None` default of line 442-444 is not modelled).  Returns `res_gw`,
one residual list per pulsar, aligned with that pulsar's epochs. -/
noncomputable def createGWB_clean (seedFn : ℤ → ℕ → ℝ) (g0 : ℕ → ℝ)
    (psr : List Pulsar) (Amp gam : ℝ) (noCorr : Bool) (seed : Option ℤ)
    (turnover : Bool) (f0 beta power : ℝ) (npts howml : ℕ) : List (List ℝ) :=
  let g : ℕ → ℝ := match seed with
    | some s => seedFn s
    | none => g0
  let Npulsars := psr.length
  let start := gwbStart psr
  let stop := gwbStop psr
  let dur := gwbDur psr
  let dt := dur / npts
  let ORF : ℕ → ℕ → ℝ :=
    if noCorr then fun i j => if i = j then 2 else 0 else computeORFMatrix psr
  let f := gwbF psr npts howml
  let Nf := f.length
  let M := cholesky ORF Npulsars
  let w : ℕ → ℕ → ℂ := fun ll k => ⟨g (2*Nf*ll + k), g (2*Nf*ll + Nf + k)⟩
  let f1yr : ℝ := 1/3.16e7
  let alpha := -0.5 * (gam - 3)
  let hcf : ℕ → ℝ := fun k =>
    let h0 := Amp * (f.getD k 0 / f1yr) ^ alpha
    if turnover then
      h0 / (1 + (f.getD k 0 / f0) ^ (power * (alpha - beta))) ^ (1/power)
    else h0
  let Cf : ℕ → ℝ := fun k => 1/96 / Real.pi^2 * hcf k ^ 2 / f.getD k 0 ^ 3 * dur * (howml : ℝ)
  let Res_f : ℕ → ℕ → ℂ := fun ll k =>
    if k = 0 ∨ k = Nf - 1 then 0
    else (∑ jj ∈ Finset.range Npulsars, (M ll jj : ℂ) * w jj k) * ((Cf k ^ ((1:ℝ)/2) : ℝ) : ℂ)
  let Res_f2 : ℕ → List ℂ := fun ll =>
    (List.range (2*Nf - 2)).map (fun k =>
      if k < Nf then Res_f ll k else star (Res_f ll (2*Nf - 2 - k)))
  let Res_t : ℕ → ℕ → ℝ := fun ll jj => (ifftPoint (Res_f2 ll) jj / (dt : ℂ)).re
  let h := (stop - start) / ((npts : ℝ) - 1)
  (List.range Npulsars).map (fun ll =>
    ((psr.getD ll default).toas).map (fun t =>
      interpGrid start h (fun i => Res_t ll (10 + i)) (t * 86400)))

/-! ## Helper lemmas -/

/-- The 3-vector dot product is symmetric. -/
theorem dot_comm (a b : Vec3) : dot a b = dot b a := by
  unfold dot; ring

/-- The sky direction built by `computeORFMatrix` is a unit vector. -/
theorem orfDir_unit (p : Pulsar) : dot (orfDir p) (orfDir p) = 1 := by
  have hA := Real.sin_sq_add_cos_sq p.raj
  have hB := Real.sin_sq_add_cos_sq (Real.pi / 2 - p.decj)
  simp only [orfDir, dot]
  nlinarith [hA, hB]

/-- The sky direction built by `add_cgw` is a unit vector. -/
theorem cgwPhat_unit (p : Pulsar) : dot (cgwPhat p) (cgwPhat p) = 1 := by
  have hA := Real.sin_sq_add_cos_sq p.raj
  have hB := Real.sin_sq_add_cos_sq (Real.pi / 2 - p.decj)
  simp only [cgwPhat, dot]
  nlinarith [hA, hB]

/-- `listMin` bounds every member from below. -/
theorem listMin_le : ∀ {l : List ℝ} {x : ℝ}, x ∈ l → listMin l ≤ x := by
  intro l
  induction l with
  | nil => intro x hx; cases hx
  | cons a t ih =>
    intro x hx
    cases t with
    | nil =>
      rcases List.mem_cons.mp hx with h | h
      · simp [listMin, h]
      · cases h
    | cons b r =>
      rcases List.mem_cons.mp hx with h | h
      · subst h; exact min_le_left _ _
      · exact le_trans (min_le_right _ _) (ih h)

/-- `listMax` bounds every member from above. -/
theorem le_listMax : ∀ {l : List ℝ} {x : ℝ}, x ∈ l → x ≤ listMax l := by
  intro l
  induction l with
  | nil => intro x hx; cases hx
  | cons a t ih =>
    intro x hx
    cases t with
    | nil =>
      rcases List.mem_cons.mp hx with h | h
      · simp [listMax, h]
      · cases h
    | cons b r =>
      rcases List.mem_cons.mp hx with h | h
      · subst h; exact le_max_left _ _
      · exact le_trans (ih h) (le_max_right _ _)

/-- `listMin` of a non-empty list is attained by a member. -/
theorem listMin_mem : ∀ {l : List ℝ}, l ≠ [] → listMin l ∈ l := by
  intro l
  induction l with
  | nil => intro h; exact absurd rfl h
  | cons a t ih =>
    intro _
    cases t with
    | nil => simp [listMin]
    | cons b r =>
      rcases min_cases a (listMin (b :: r)) with ⟨h, _⟩ | ⟨h, _⟩
      · simp [listMin, h]
      · have := ih (by simp)
        simp only [listMin, h]
        exact List.mem_cons_of_mem _ this

/-- `listMax` of a non-empty list is attained by a member. -/
theorem listMax_mem : ∀ {l : List ℝ}, l ≠ [] → listMax l ∈ l := by
  intro l
  induction l with
  | nil => intro h; exact absurd rfl h
  | cons a t ih =>
    intro _
    cases t with
    | nil => simp [listMax]
    | cons b r =>
      rcases max_cases a (listMax (b :: r)) with ⟨h, _⟩ | ⟨h, _⟩
      · simp [listMax, h]
      · have := ih (by simp)
        simp only [listMax, h]
        exact List.mem_cons_of_mem _ this

/-- Element `k` of a mapped range, through `getD`. -/
theorem range_map_getD (n k : ℕ) (g : ℕ → ℝ) (hk : k < n) :
    ((List.range n).map g).getD k 0 = g k := by
  rw [List.getD_eq_getElem?_getD]
  simp [List.getElem?_map, List.getElem?_range, hk]

/-- Overwriting the head of a non-empty list, read back through `getD`. -/
theorem set_head_getD (l : List ℝ) (v : ℝ) (h : l ≠ []) : (l.set 0 v).getD 0 0 = v := by
  cases l with
  | nil => exact absurd rfl h
  | cons a t => rfl

/-- Overwriting the head leaves later positions unchanged. -/
theorem set_getD_succ (l : List ℝ) (v : ℝ) (k : ℕ) :
    (l.set 0 v).getD (k+1) 0 = l.getD (k+1) 0 := by
  cases l <;> simp

/-! ## Claim C1: the ORF matrix -/

/-- Claim C1: for every non-empty list of pulsars with pairwise distinct sky
directions, `computeORFMatrix` has diagonal entries exactly 2, off-diagonal
entry `(i,j)` equal to `3*(1/3 + xi*(log xi - 1/6))` with
`xi = (1 - phat_i · phat_j)/2` for the unit directions derived from
`(RAJ, DECJ)`, and is symmetric.  (The final conjunct records that the
directions are indeed unit vectors.) -/
theorem orf_matrix_props (psr : List Pulsar) (h1 : psr ≠ [])
    (h2 : ∀ i j, i < psr.length → j < psr.length → i ≠ j →
      orfDir (psr.getD i default) ≠ orfDir (psr.getD j default)) :
    (∀ i, i < psr.length → computeORFMatrix psr i i = 2) ∧
    (∀ i j, i < psr.length → j < psr.length → i ≠ j →
      computeORFMatrix psr i j =
        3 * (1/3 + (1 - dot (orfDir (psr.getD i default)) (orfDir (psr.getD j default))) / 2 *
          (Real.log ((1 - dot (orfDir (psr.getD i default)) (orfDir (psr.getD j default))) / 2)
            - 1/6))) ∧
    (∀ i j, computeORFMatrix psr i j = computeORFMatrix psr j i) ∧
    (∀ i, i < psr.length → dot (orfDir (psr.getD i default)) (orfDir (psr.getD i default)) = 1) := by
  refine ⟨?_, ?_, ?_, ?_⟩
  · intro i _
    simp [computeORFMatrix]
  · intro i j _ _ hij
    simp [computeORFMatrix, hij]
  · intro i j
    by_cases hij : i = j
    · subst hij; rfl
    · simp only [computeORFMatrix]
      rw [if_pos hij, if_pos (Ne.symm hij),
        dot_comm (orfDir (psr.getD i default)) (orfDir (psr.getD j default))]
  · intro i _
    exact orfDir_unit _

/-- Concrete two-pulsar input for the Claim C1 witness: directions
`(1,0,0)` and `(-1,0,0)`. -/
noncomputable def psrPairDistinct : List Pulsar := [⟨0, 0, [0]⟩, ⟨Real.pi, 0, [0]⟩]

/-- Claim C1 witness: the hypotheses of `orf_matrix_props` hold at a concrete
two-pulsar list with distinct directions, and the conclusion follows there. -/
theorem orf_matrix_props_witness :
    psrPairDistinct ≠ [] ∧
    ((∀ i, i < psrPairDistinct.length → computeORFMatrix psrPairDistinct i i = 2) ∧
     (∀ i j, i < psrPairDistinct.length → j < psrPairDistinct.length → i ≠ j →
       computeORFMatrix psrPairDistinct i j =
         3 * (1/3 + (1 - dot (orfDir (psrPairDistinct.getD i default))
                (orfDir (psrPairDistinct.getD j default))) / 2 *
           (Real.log ((1 - dot (orfDir (psrPairDistinct.getD i default))
                (orfDir (psrPairDistinct.getD j default))) / 2) - 1/6))) ∧
     (∀ i j, computeORFMatrix psrPairDistinct i j = computeORFMatrix psrPairDistinct j i) ∧
     (∀ i, i < psrPairDistinct.length →
       dot (orfDir (psrPairDistinct.getD i default)) (orfDir (psrPairDistinct.getD i default)) = 1)) := by
  have hne : psrPairDistinct ≠ [] := by simp [psrPairDistinct]
  have hdist : ∀ i j, i < psrPairDistinct.length → j < psrPairDistinct.length → i ≠ j →
      orfDir (psrPairDistinct.getD i default) ≠ orfDir (psrPairDistinct.getD j default) := by
    intro i j hi hj hij
    have hlen : psrPairDistinct.length = 2 := by simp [psrPairDistinct]
    rw [hlen] at hi hj
    have h0 : orfDir (⟨0, 0, [0]⟩ : Pulsar) = ⟨1, 0, 0⟩ := by
      simp [orfDir, Real.sin_pi_div_two, Real.cos_pi_div_two]
    have h1 : orfDir (⟨Real.pi, 0, [0]⟩ : Pulsar) = ⟨-1, 0, 0⟩ := by
      simp [orfDir, Real.sin_pi_div_two, Real.cos_pi_div_two]
    interval_cases i <;> interval_cases j <;>
      simp_all [psrPairDistinct, Vec3.mk.injEq] <;> norm_num at *
  exact ⟨hne, orf_matrix_props psrPairDistinct hne hdist⟩

/-! ## Claim C2: on-axis pulsar, pulsar term disabled -/

/-- Claim C2 counterexample: at `gwtheta = 0`, `gwphi = 0` and a pulsar with
`DECJ = pi/2` (polar angle 0), both antenna numerators vanish AND the antenna
denominator `1 + omhat·phat` vanishes.  The source therefore computes
`fplus = 0.5*(0 - 0)/0` and `fcross = 0*0/0`, which in IEEE double
arithmetic is `NaN`, not `0`, and the induced residual is `NaN` at every
epoch, not `0`: the claimed configuration is the degenerate anti-aligned
point of the antenna pattern, not a zero-response point. -/
theorem cgw_onaxis_counterexample :
    1 + dot (cgwOmhat 0 0) (cgwPhat ⟨0, Real.pi/2, [0]⟩) = 0 ∧
    dot (cgwM 0 0) (cgwPhat ⟨0, Real.pi/2, [0]⟩) = 0 ∧
    dot (cgwN 0 0) (cgwPhat ⟨0, Real.pi/2, [0]⟩) = 0 := by
  refine ⟨?_, ?_, ?_⟩ <;> simp [cgwOmhat, cgwM, cgwN, cgwPhat, dot]

/-- Claim C2 amended: for the continuous-wave generator called with
`gwtheta = 0`, `gwphi = 0`, a pulsar located at polar angle `theta = pi`
(`DECJ = -pi/2`, i.e. aligned with the propagation direction, where the
antenna denominator equals 2), pulsar term disabled, and any epoch array,
the antenna factors `f_plus` and `f_cross` are both 0 and the induced
residual is exactly 0 at every epoch. -/
theorem cgw_onaxis_amended (raj : ℝ) (toas : List ℝ)
    (mc dist fgw phase0 psi inc pdist : ℝ) (pphase : Option ℝ)
    (evolve phase_approx : Bool) (tref : ℝ) :
    cgwFplus ⟨raj, -(Real.pi/2), toas⟩ 0 0 = 0 ∧
    cgwFcross ⟨raj, -(Real.pi/2), toas⟩ 0 0 = 0 ∧
    add_cgw ⟨raj, -(Real.pi/2), toas⟩ 0 0 mc dist fgw phase0 psi inc pdist pphase
      false evolve phase_approx tref = toas.map (fun _ => (0:ℝ)) := by
  have hpt : Real.pi/2 - -(Real.pi/2) = Real.pi := by ring
  have hphat : cgwPhat ⟨raj, -(Real.pi/2), toas⟩ = ⟨0, 0, -1⟩ := by
    simp [cgwPhat, hpt]
  have hfp : cgwFplus ⟨raj, -(Real.pi/2), toas⟩ 0 0 = 0 := by
    simp [cgwFplus, hphat, cgwM, cgwN, cgwOmhat, dot]
  have hfc : cgwFcross ⟨raj, -(Real.pi/2), toas⟩ 0 0 = 0 := by
    simp [cgwFcross, hphat, cgwM, cgwN, cgwOmhat, dot]
  refine ⟨hfp, hfc, ?_⟩
  simp [add_cgw, hfp, hfc]

/-! ## Claim C8: vanishing antenna denominator is not detected -/

/-- Claim C8 counterexample: at a configuration where the antenna
denominator `1 + omhat·phat` is exactly 0 (pulsar anti-aligned with the
propagation direction), the generator does NOT fail fast with a domain
error: it runs to completion and returns one residual per epoch.  (In IEEE
double arithmetic the unguarded divisions of source lines 327-328 silently
produce `NaN` there.) -/
theorem cgw_antialigned_counterexample :
    1 + dot (cgwOmhat 0 0) (cgwPhat ⟨0, Real.pi/2, [0]⟩) = 0 ∧
    (add_cgw ⟨0, Real.pi/2, [0]⟩ 0 0 1 1 1 1 1 1 1 none true true false 0).length = 1 := by
  constructor
  · simp [cgwOmhat, cgwPhat, dot]
  · simp [add_cgw]

/-- Claim C8 amended: the generator performs no anti-alignment check.  For
every input in which the antenna denominator `1 + omhat·phat` vanishes, the
computation still proceeds through the unguarded divisions of lines 327-328
(which yield `NaN` in IEEE double arithmetic) and returns one residual per
epoch; no domain error is raised. -/
theorem cgw_antialigned_amended (p : Pulsar) (gwtheta gwphi mc dist fgw phase0 psi inc pdist : ℝ)
    (pphase : Option ℝ) (psrTerm evolve phase_approx : Bool) (tref : ℝ)
    (h : 1 + dot (cgwOmhat gwtheta gwphi) (cgwPhat p) = 0) :
    (add_cgw p gwtheta gwphi mc dist fgw phase0 psi inc pdist pphase
      psrTerm evolve phase_approx tref).length = p.toas.length := by
  simp [add_cgw]

/-- Claim C8 amended witness: the degenerate-denominator hypothesis is
satisfiable and the amended conclusion holds there. -/
theorem cgw_antialigned_amended_witness :
    1 + dot (cgwOmhat 0 0) (cgwPhat ⟨0, Real.pi/2, [0, 1]⟩) = 0 ∧
    (add_cgw ⟨0, Real.pi/2, [0, 1]⟩ 0 0 2 3 1 1 0 0 1 none false false true 0).length =
      (Pulsar.toas ⟨0, Real.pi/2, [0, 1]⟩).length := by
  constructor
  · simp [cgwOmhat, cgwPhat, dot]
  · exact cgw_antialigned_amended ⟨0, Real.pi/2, [0, 1]⟩ 0 0 2 3 1 1 0 0 1 none false false true 0
      (by simp [cgwOmhat, cgwPhat, dot])

/-! ## Claim C5: antenna pattern formulas -/

/-- Claim C5: for every pulsar direction and source geometry with
`1 + omhat·phat ≠ 0`, the generator's antenna factors satisfy
`f_plus = 0.5*((m·phat)^2 - (n·phat)^2)/(1 + omhat·phat)`,
`f_cross = (m·phat)*(n·phat)/(1 + omhat·phat)` and `cos_mu = -omhat·phat`,
where `phat` is the unit vector built from `theta = pi/2 - DECJ`,
`phi = RAJ`, and `m`, `n`, `omhat` are the polarization basis and
propagation direction built from `(gwtheta, gwphi)`. -/
theorem cgw_antenna_pattern (p : Pulsar) (gwtheta gwphi : ℝ)
    (h : 1 + dot (cgwOmhat gwtheta gwphi) (cgwPhat p) ≠ 0) :
    cgwPhat p = ⟨Real.sin (Real.pi/2 - p.decj) * Real.cos p.raj,
                 Real.sin (Real.pi/2 - p.decj) * Real.sin p.raj,
                 Real.cos (Real.pi/2 - p.decj)⟩ ∧
    dot (cgwPhat p) (cgwPhat p) = 1 ∧
    cgwM gwtheta gwphi = ⟨-Real.sin gwphi, Real.cos gwphi, 0⟩ ∧
    cgwN gwtheta gwphi = ⟨-Real.cos gwtheta * Real.cos gwphi,
                          -Real.cos gwtheta * Real.sin gwphi, Real.sin gwtheta⟩ ∧
    cgwOmhat gwtheta gwphi = ⟨-Real.sin gwtheta * Real.cos gwphi,
                              -Real.sin gwtheta * Real.sin gwphi, -Real.cos gwtheta⟩ ∧
    cgwFplus p gwtheta gwphi =
      0.5 * ((dot (cgwM gwtheta gwphi) (cgwPhat p)) ^ 2 - (dot (cgwN gwtheta gwphi) (cgwPhat p)) ^ 2)
        / (1 + dot (cgwOmhat gwtheta gwphi) (cgwPhat p)) ∧
    cgwFcross p gwtheta gwphi =
      dot (cgwM gwtheta gwphi) (cgwPhat p) * dot (cgwN gwtheta gwphi) (cgwPhat p)
        / (1 + dot (cgwOmhat gwtheta gwphi) (cgwPhat p)) ∧
    cgwCosMu p gwtheta gwphi = -(dot (cgwOmhat gwtheta gwphi) (cgwPhat p)) :=
  ⟨rfl, cgwPhat_unit p, rfl, rfl, rfl, rfl, rfl, rfl⟩

/-- Claim C5 witness: a concrete non-degenerate geometry (`gwtheta = 0`,
`gwphi = 0`, pulsar at `RAJ = 0`, `DECJ = 0`, denominator 1) satisfies the
hypothesis of `cgw_antenna_pattern`, whose conclusion follows there. -/
theorem cgw_antenna_pattern_witness :
    (1 + dot (cgwOmhat 0 0) (cgwPhat ⟨0, 0, [0]⟩) ≠ 0) ∧
    cgwCosMu ⟨0, 0, [0]⟩ 0 0 = -(dot (cgwOmhat 0 0) (cgwPhat ⟨0, 0, [0]⟩)) ∧
    dot (cgwPhat ⟨0, 0, [0]⟩) (cgwPhat ⟨0, 0, [0]⟩) = 1 := by
  have h : 1 + dot (cgwOmhat 0 0) (cgwPhat ⟨0, 0, [0]⟩) ≠ 0 := by
    simp [cgwOmhat, cgwPhat, dot]
  have hc := cgw_antenna_pattern ⟨0, 0, [0]⟩ 0 0 h
  exact ⟨h, hc.2.2.2.2.2.2.2, hc.2.1⟩

/-! ## Claim C3: the three evolution policies -/

/-- Claim C3: exactly one of three evolution policies is applied per call,
selected by `evolve` and `phase_approx`: full chirped evolution of `omega`
and `phase` at observer and pulsar when `evolve` is true; fixed observer
frequency with a chirped pulsar-term frequency when `evolve` is false and
`phase_approx` is true; purely monochromatic phases
(`omega_p = omega = pi*fgw`, phases linear in time) when both are false. -/
theorem cgw_evolution_policies (evolve phase_approx : Bool)
    (fgw w053 fac1 fac2 phase0 pd cosMu t tp : ℝ) :
    (evolve = true →
      cgwOmegaPhase evolve phase_approx (Real.pi * fgw) w053 fac1 fac2 phase0 pd cosMu t tp =
        (Real.pi * fgw * (1 - fac1 * t) ^ (-(3:ℝ)/8),
         Real.pi * fgw * (1 - fac1 * tp) ^ (-(3:ℝ)/8),
         phase0 + fac2 * (w053 - (Real.pi * fgw * (1 - fac1 * t) ^ (-(3:ℝ)/8)) ^ (-(5:ℝ)/3)),
         phase0 + fac2 * (w053 - (Real.pi * fgw * (1 - fac1 * tp) ^ (-(3:ℝ)/8)) ^ (-(5:ℝ)/3)))) ∧
    (evolve = false → phase_approx = true →
      cgwOmegaPhase evolve phase_approx (Real.pi * fgw) w053 fac1 fac2 phase0 pd cosMu t tp =
        (Real.pi * fgw,
         Real.pi * fgw * (1 + fac1 * pd * (1 - cosMu)) ^ (-(3:ℝ)/8),
         phase0 + Real.pi * fgw * t,
         phase0 + fac2 * (w053 -
             (Real.pi * fgw * (1 + fac1 * pd * (1 - cosMu)) ^ (-(3:ℝ)/8)) ^ (-(5:ℝ)/3)) +
           Real.pi * fgw * (1 + fac1 * pd * (1 - cosMu)) ^ (-(3:ℝ)/8) * t)) ∧
    (evolve = false → phase_approx = false →
      cgwOmegaPhase evolve phase_approx (Real.pi * fgw) w053 fac1 fac2 phase0 pd cosMu t tp =
        (Real.pi * fgw, Real.pi * fgw,
         phase0 + Real.pi * fgw * t, phase0 + Real.pi * fgw * tp)) := by
  refine ⟨?_, ?_, ?_⟩ <;> intro h1 <;> try intro h2
  all_goals subst h1
  all_goals try subst h2
  all_goals rfl

/-- Claim C3 witness: the three flag configurations are each reachable, and
the selected policy at concrete inputs is the one `cgw_evolution_policies`
states (monochromatic case shown with `fgw = 3`, `t = 2`, `tp = 5`). -/
theorem cgw_evolution_policies_witness :
    cgwOmegaPhase true false (Real.pi * 3) 1 1 1 1 1 1 2 5 =
      (Real.pi * 3 * (1 - 1 * 2) ^ (-(3:ℝ)/8),
       Real.pi * 3 * (1 - 1 * 5) ^ (-(3:ℝ)/8),
       1 + 1 * (1 - (Real.pi * 3 * (1 - 1 * 2) ^ (-(3:ℝ)/8)) ^ (-(5:ℝ)/3)),
       1 + 1 * (1 - (Real.pi * 3 * (1 - 1 * 5) ^ (-(3:ℝ)/8)) ^ (-(5:ℝ)/3))) ∧
    cgwOmegaPhase false true (Real.pi * 3) 1 1 1 1 1 1 2 5 =
      (Real.pi * 3,
       Real.pi * 3 * (1 + 1 * 1 * (1 - 1)) ^ (-(3:ℝ)/8),
       1 + Real.pi * 3 * 2,
       1 + 1 * (1 - (Real.pi * 3 * (1 + 1 * 1 * (1 - 1)) ^ (-(3:ℝ)/8)) ^ (-(5:ℝ)/3)) +
         Real.pi * 3 * (1 + 1 * 1 * (1 - 1)) ^ (-(3:ℝ)/8) * 2) ∧
    cgwOmegaPhase false false (Real.pi * 3) 1 1 1 1 1 1 2 5 =
      (Real.pi * 3, Real.pi * 3, 1 + Real.pi * 3 * 2, 1 + Real.pi * 3 * 5) :=
  ⟨(cgw_evolution_policies true false 3 1 1 1 1 1 1 2 5).1 rfl,
   (cgw_evolution_policies false true 3 1 1 1 1 1 1 2 5).2.1 rfl rfl,
   (cgw_evolution_policies false false 3 1 1 1 1 1 1 2 5).2.2 rfl rfl⟩

/-! ## Claim C4: residual combination with and without the pulsar term -/

/-- Claim C4: with the pulsar term requested, the residual at each epoch is
`fplus*(rplus_p - rplus) + fcross*(rcross_p - rcross)` (retarded pulsar-time
projection minus observer-time projection); without it, the residual is
`-fplus*rplus - fcross*rcross`, only the negative observer-term projection.
The projections `(rplus, rcross, rplus_p, rcross_p)` are `cgwProjections`. -/
theorem cgw_residual_combination (p : Pulsar)
    (gwtheta gwphi mc dist fgw phase0 psi inc pdist : ℝ) (pphase : Option ℝ)
    (evolve phase_approx : Bool) (tref : ℝ) :
    (add_cgw p gwtheta gwphi mc dist fgw phase0 psi inc pdist pphase
        true evolve phase_approx tref =
      p.toas.map (fun t0 =>
        let pr := cgwProjections p gwtheta gwphi mc dist fgw phase0 psi inc pdist pphase
          evolve phase_approx tref t0
        cgwFplus p gwtheta gwphi * (pr.2.2.1 - pr.1) +
          cgwFcross p gwtheta gwphi * (pr.2.2.2 - pr.2.1))) ∧
    (add_cgw p gwtheta gwphi mc dist fgw phase0 psi inc pdist pphase
        false evolve phase_approx tref =
      p.toas.map (fun t0 =>
        let pr := cgwProjections p gwtheta gwphi mc dist fgw phase0 psi inc pdist pphase
          evolve phase_approx tref t0;
        -(cgwFplus p gwtheta gwphi) * pr.1 - cgwFcross p gwtheta gwphi * pr.2.1)) :=
  ⟨rfl, rfl⟩

/-! ## Claim C7: coincident pulsar directions in the ORF -/

/-- Claim C7 counterexample: for two pulsars with identical sky directions
the ORF construction does NOT raise a domain error: it evaluates the
Hellings-Downs formula at `xip = 0` and stores the entry.  (In IEEE double
arithmetic `N.log(0.)` is `-inf` with a runtime warning, `0*(-inf)` is
`NaN`, and the non-finite entry is produced silently; no exception is
raised anywhere in `computeORFMatrix`.) -/
theorem orf_coincident_counterexample :
    (1 - dot (orfDir ⟨0, 0, [0]⟩) (orfDir ⟨0, 0, [0]⟩)) / 2 = 0 ∧
    computeORFMatrix [⟨0, 0, [0]⟩, ⟨0, 0, [0]⟩] 0 1 =
      3 * (1/3 + 0 * (Real.log 0 - 1/6)) := by
  have hu := orfDir_unit (⟨0, 0, [0]⟩ : Pulsar)
  constructor
  · rw [hu]; norm_num
  · simp only [computeORFMatrix]
    norm_num [hu]

/-- Claim C7 amended: `computeORFMatrix` performs no coincidence check and
raises no error.  For every pair `i ≠ j` of positions holding pulsars with
identical sky directions, `xip = 0` and the off-diagonal entry is computed
by evaluating the formula at `xip = 0` (i.e. through `log 0`, which IEEE
double arithmetic renders as `-inf`, making the stored entry `NaN`); the
matrix is returned, the failure is not detected. -/
theorem orf_coincident_amended (psr : List Pulsar) (i j : ℕ)
    (hi : i < psr.length) (hj : j < psr.length) (hij : i ≠ j)
    (hdir : orfDir (psr.getD i default) = orfDir (psr.getD j default)) :
    (1 - dot (orfDir (psr.getD i default)) (orfDir (psr.getD j default))) / 2 = 0 ∧
    computeORFMatrix psr i j = 3 * (1/3 + 0 * (Real.log 0 - 1/6)) := by
  have hxi : (1 - dot (orfDir (psr.getD i default)) (orfDir (psr.getD j default))) / 2 = 0 := by
    rw [hdir, orfDir_unit]; norm_num
  refine ⟨hxi, ?_⟩
  simp only [computeORFMatrix]
  rw [if_pos hij, hxi]

/-- Claim C7 amended witness: a concrete pair of coincident pulsars
satisfies the hypotheses of `orf_coincident_amended` and its conclusion
holds there. -/
theorem orf_coincident_amended_witness :
    (0 : ℕ) ≠ 1 ∧
    orfDir (([⟨0, 0, [0]⟩, ⟨0, 0, [0]⟩] : List Pulsar).getD 0 default) =
      orfDir (([⟨0, 0, [0]⟩, ⟨0, 0, [0]⟩] : List Pulsar).getD 1 default) ∧
    ((1 - dot (orfDir (([⟨0, 0, [0]⟩, ⟨0, 0, [0]⟩] : List Pulsar).getD 0 default))
        (orfDir (([⟨0, 0, [0]⟩, ⟨0, 0, [0]⟩] : List Pulsar).getD 1 default))) / 2 = 0 ∧
      computeORFMatrix [⟨0, 0, [0]⟩, ⟨0, 0, [0]⟩] 0 1 =
        3 * (1/3 + 0 * (Real.log 0 - 1/6))) :=
  ⟨by decide, rfl,
    orf_coincident_amended [⟨0, 0, [0]⟩, ⟨0, 0, [0]⟩] 0 1 (by simp) (by simp) (by decide) rfl⟩

/-! ## Claim C6: time span and frequency grid of the synthesizer -/

/-- Claim C6: for every non-empty pulsar list, `start` is the minimum epoch
in seconds minus one day (86400 s) and `stop` the maximum plus one day, with
`dur = stop - start`; the frequency grid consists of points spaced by
`1/(dur*howml)` reaching up to (but not attaining) the Nyquist frequency
`1/(2*dt)` with `dt = dur/npts`, and the first (zero-frequency) bin is
clamped to equal the second bin. -/
theorem gwb_span_and_grid (psr : List Pulsar) (npts howml : ℕ)
    (h1 : psr ≠ []) (h2 : ∀ q ∈ psr, q.toas ≠ [])
    (h3 : 0 < npts) (h4 : 3 ≤ howml * npts) :
    (∀ p ∈ psr, ∀ t ∈ p.toas, gwbStart psr ≤ t * 86400 - 86400) ∧
    (∃ p ∈ psr, ∃ t ∈ p.toas, gwbStart psr = t * 86400 - 86400) ∧
    (∀ p ∈ psr, ∀ t ∈ p.toas, t * 86400 + 86400 ≤ gwbStop psr) ∧
    (∃ p ∈ psr, ∃ t ∈ p.toas, gwbStop psr = t * 86400 + 86400) ∧
    gwbDur psr = gwbStop psr - gwbStart psr ∧
    (∀ k, 1 ≤ k → k < (gwbF psr npts howml).length →
      (gwbF psr npts howml).getD k 0 = k * (1 / (gwbDur psr * howml))) ∧
    (gwbF psr npts howml).getD 0 0 = (gwbF psr npts howml).getD 1 0 ∧
    (∀ k, k < (gwbF psr npts howml).length →
      (gwbF psr npts howml).getD k 0 < 1 / (2 * (gwbDur psr / npts))) ∧
    1 / (2 * (gwbDur psr / npts)) ≤
      ((gwbF psr npts howml).length : ℝ) * (1 / (gwbDur psr * howml)) := by
  -- the span
  have hmapne : psr.map (fun p => listMin p.toas * 86400) ≠ [] := by
    simpa using h1
  have hmapne2 : psr.map (fun p => listMax p.toas * 86400) ≠ [] := by
    simpa using h1
  have lower : ∀ p ∈ psr, ∀ t ∈ p.toas, gwbStart psr ≤ t * 86400 - 86400 := by
    intro p hp t ht
    have h5 : listMin (psr.map (fun p => listMin p.toas * 86400)) ≤ listMin p.toas * 86400 :=
      listMin_le (List.mem_map_of_mem _ hp)
    have h6 : listMin p.toas * 86400 ≤ t * 86400 :=
      mul_le_mul_of_nonneg_right (listMin_le ht) (by norm_num)
    unfold gwbStart
    linarith
  have upper : ∀ p ∈ psr, ∀ t ∈ p.toas, t * 86400 + 86400 ≤ gwbStop psr := by
    intro p hp t ht
    have h5 : listMax p.toas * 86400 ≤ listMax (psr.map (fun p => listMax p.toas * 86400)) :=
      le_listMax (List.mem_map_of_mem _ hp)
    have h6 : t * 86400 ≤ listMax p.toas * 86400 :=
      mul_le_mul_of_nonneg_right (le_listMax ht) (by norm_num)
    unfold gwbStop
    linarith
  have exmin : ∃ p ∈ psr, ∃ t ∈ p.toas, gwbStart psr = t * 86400 - 86400 := by
    rcases List.mem_map.mp (listMin_mem hmapne) with ⟨p, hp, hpe⟩
    refine ⟨p, hp, listMin p.toas, listMin_mem (h2 p hp), ?_⟩
    unfold gwbStart
    rw [← hpe]
  have exmax : ∃ p ∈ psr, ∃ t ∈ p.toas, gwbStop psr = t * 86400 + 86400 := by
    rcases List.mem_map.mp (listMax_mem hmapne2) with ⟨p, hp, hpe⟩
    refine ⟨p, hp, listMax p.toas, listMax_mem (h2 p hp), ?_⟩
    unfold gwbStop
    rw [← hpe]
  have hdur : 0 < gwbDur psr := by
    rcases exmin with ⟨p, hp, t, ht, he⟩
    have hu := upper p hp t ht
    unfold gwbDur
    linarith
  -- the frequency grid
  have hdne : gwbDur psr ≠ 0 := ne_of_gt hdur
  have hnR : (0:ℝ) < (npts:ℝ) := by exact_mod_cast h3
  have hhow0 : howml ≠ 0 := by rintro rfl; simp at h4
  have hhR : (0:ℝ) < (howml:ℝ) := by
    have := Nat.pos_of_ne_zero hhow0
    exact_mod_cast this
  have h4R : (3:ℝ) ≤ (howml:ℝ) * (npts:ℝ) := by exact_mod_cast h4
  set dur := gwbDur psr with hdurdef
  set step := 1 / (dur * (howml:ℝ)) with hstepdef
  set nyq := 1 / (2 * (dur / (npts:ℝ))) with hnyqdef
  have hstep : 0 < step := by rw [hstepdef]; positivity
  have hnyqpos : 0 < nyq := by rw [hnyqdef]; positivity
  have hE : nyq / step = (npts:ℝ) * (howml:ℝ) / 2 := by
    rw [hstepdef, hnyqdef]
    field_simp
    ring
  have hEgt1 : (1:ℝ) < nyq / step := by rw [hE]; nlinarith
  have hnyqeq : nyq / step * step = nyq := div_mul_cancel₀ nyq (ne_of_gt hstep)
  have hgwbF : gwbF psr npts howml = (arange nyq step).set 0 ((arange nyq step).getD 1 0) := rfl
  have harangeEq : arange nyq step =
      (List.range (Nat.ceil (nyq / step))).map (fun (k : ℕ) => (k:ℝ) * step) := rfl
  have harange_len : (arange nyq step).length = Nat.ceil (nyq / step) := by
    rw [harangeEq, List.length_map, List.length_range]
  have hlen : (gwbF psr npts howml).length = Nat.ceil (nyq / step) := by
    rw [hgwbF, List.length_set, harange_len]
  have hlen2 : 2 ≤ (gwbF psr npts howml).length := by
    rw [hlen]
    have h12 : 1 < Nat.ceil (nyq / step) := Nat.lt_ceil.mpr (by push_cast; exact hEgt1)
    omega
  have harange_ne : arange nyq step ≠ [] := by
    have : 0 < (arange nyq step).length := by
      rw [harange_len]
      have h12 : 1 < Nat.ceil (nyq / step) := Nat.lt_ceil.mpr (by push_cast; exact hEgt1)
      omega
    exact List.ne_nil_of_length_pos this
  have hget : ∀ k, k < Nat.ceil (nyq / step) → (arange nyq step).getD k 0 = k * step := by
    intro k hk
    rw [harangeEq]
    exact range_map_getD (Nat.ceil (nyq / step)) k (fun (k : ℕ) => (k:ℝ) * step) hk
  have spaced : ∀ k, 1 ≤ k → k < (gwbF psr npts howml).length →
      (gwbF psr npts howml).getD k 0 = k * step := by
    intro k hk1 hk
    rw [hlen] at hk
    rcases Nat.exists_eq_add_of_le hk1 with ⟨r, rfl⟩
    rw [Nat.add_comm 1 r] at hk ⊢
    rw [hgwbF, set_getD_succ]
    exact hget _ hk
  have clamp0 : (gwbF psr npts howml).getD 0 0 = 1 * step := by
    rw [hgwbF, set_head_getD _ _ harange_ne]
    have h9 := hget 1 (by rw [hlen] at hlen2; omega)
    simpa using h9
  have clamp1 : (gwbF psr npts howml).getD 1 0 = 1 * step := by
    have h9 := spaced 1 le_rfl (by omega)
    simpa using h9
  refine ⟨lower, exmin, upper, exmax, rfl, spaced, ?_, ?_, ?_⟩
  · rw [clamp0, clamp1]
  · intro k hk
    have hkceil : k < Nat.ceil (nyq / step) := by rw [← hlen]; exact hk
    have hkR : (k:ℝ) < nyq / step := Nat.lt_ceil.mp hkceil
    rcases Nat.eq_zero_or_pos k with rfl | hkpos
    · rw [clamp0]
      calc (1:ℝ) * step < nyq / step * step := by nlinarith
        _ = nyq := hnyqeq
    · rw [spaced k hkpos hk]
      calc (k:ℝ) * step < nyq / step * step := by nlinarith
        _ = nyq := hnyqeq
  · rw [hlen]
    have hce : nyq / step ≤ (Nat.ceil (nyq / step) : ℝ) := Nat.le_ceil _
    calc nyq = nyq / step * step := hnyqeq.symm
      _ ≤ (Nat.ceil (nyq / step) : ℝ) * step := by nlinarith

/-- Concrete single-pulsar input for the Claim C6 witness. -/
noncomputable def psrSingle : List Pulsar := [⟨0, 0, [0]⟩]

/-- Claim C6 witness: the hypotheses of `gwb_span_and_grid` hold for a
concrete pulsar list with the source defaults `npts = 600`, `howml = 10`,
and the conclusion follows there. -/
theorem gwb_span_and_grid_witness :
    psrSingle ≠ [] ∧ 0 < 600 ∧ 3 ≤ 10 * 600 ∧
    ((∀ p ∈ psrSingle, ∀ t ∈ p.toas, gwbStart psrSingle ≤ t * 86400 - 86400) ∧
     (∃ p ∈ psrSingle, ∃ t ∈ p.toas, gwbStart psrSingle = t * 86400 - 86400) ∧
     (∀ p ∈ psrSingle, ∀ t ∈ p.toas, t * 86400 + 86400 ≤ gwbStop psrSingle) ∧
     (∃ p ∈ psrSingle, ∃ t ∈ p.toas, gwbStop psrSingle = t * 86400 + 86400) ∧
     gwbDur psrSingle = gwbStop psrSingle - gwbStart psrSingle ∧
     (∀ k, 1 ≤ k → k < (gwbF psrSingle 600 10).length →
       (gwbF psrSingle 600 10).getD k 0 = k * (1 / (gwbDur psrSingle * 10))) ∧
     (gwbF psrSingle 600 10).getD 0 0 = (gwbF psrSingle 600 10).getD 1 0 ∧
     (∀ k, k < (gwbF psrSingle 600 10).length →
       (gwbF psrSingle 600 10).getD k 0 < 1 / (2 * (gwbDur psrSingle / 600))) ∧
     1 / (2 * (gwbDur psrSingle / 600)) ≤
       ((gwbF psrSingle 600 10).length : ℝ) * (1 / (gwbDur psrSingle * 10))) := by
  have hne : psrSingle ≠ [] := by simp [psrSingle]
  have htoas : ∀ q ∈ psrSingle, q.toas ≠ [] := by
    intro q hq
    simp only [psrSingle, List.mem_singleton] at hq
    subst hq
    simp
  exact ⟨hne, by norm_num, by norm_num,
    gwb_span_and_grid psrSingle 600 10 hne htoas (by norm_num) (by norm_num)⟩

/-! ## Claim C9: determinism of the synthesizer under a fixed seed -/

/-- Claim C9: with a non-None seed, `createGWB_clean` is deterministic —
two runs with identical inputs and the same seed produce identical output
residual arrays for every pulsar, regardless of the state `g0` the global
generator was in before the call, because `N.random.seed` resets the global
stream and the draws are then consumed in a fixed pulsar-major order
(encoded in the definition of `createGWB_clean`). -/
theorem createGWB_clean_deterministic (seedFn : ℤ → ℕ → ℝ) (g1 g2 : ℕ → ℝ)
    (psr : List Pulsar) (Amp gam : ℝ) (noCorr : Bool) (s : ℤ)
    (turnover : Bool) (f0 beta power : ℝ) (npts howml : ℕ) :
    createGWB_clean seedFn g1 psr Amp gam noCorr (some s) turnover f0 beta power npts howml =
    createGWB_clean seedFn g2 psr Amp gam noCorr (some s) turnover f0 beta power npts howml := rfl

/-! ## Claim C10: epochs lie strictly inside the interpolation grid -/

/-- Claim C10: the evenly spaced time grid `ut = linspace(start, stop, npts)`
begins at `start` and ends at `stop`, and every observation epoch converted
to seconds lies strictly inside `(start, stop)` (start and stop pad the
global extremes by one day), so the final linear interpolation onto each
pulsar's epochs is evaluated inside the interpolation range at every epoch. -/
theorem gwb_epochs_strictly_inside (psr : List Pulsar) (npts : ℕ) (hn : 2 ≤ npts) :
    (linspace (gwbStart psr) (gwbStop psr) npts).getD 0 0 = gwbStart psr ∧
    (linspace (gwbStart psr) (gwbStop psr) npts).getD (npts - 1) 0 = gwbStop psr ∧
    ∀ p ∈ psr, ∀ t ∈ p.toas, gwbStart psr < t * 86400 ∧ t * 86400 < gwbStop psr := by
  have hlin : linspace (gwbStart psr) (gwbStop psr) npts =
      (List.range npts).map
        (fun (i : ℕ) => gwbStart psr + (i : ℝ) * ((gwbStop psr - gwbStart psr) / ((npts : ℝ) - 1))) :=
    rfl
  have hne1 : ((npts : ℝ) - 1) ≠ 0 := by
    have : (2:ℝ) ≤ (npts : ℝ) := by exact_mod_cast hn
    linarith
  refine ⟨?_, ?_, ?_⟩
  · rw [hlin, range_map_getD _ _ _ (by omega)]
    simp
  · rw [hlin, range_map_getD _ _ _ (by omega)]
    have hc : ((npts - 1 : ℕ) : ℝ) = (npts : ℝ) - 1 := by
      have : 1 ≤ npts := by omega
      push_cast [this]
      ring
    rw [hc]
    field_simp
  · intro p hp t ht
    constructor
    · have h5 : listMin (psr.map (fun p => listMin p.toas * 86400)) ≤ listMin p.toas * 86400 :=
        listMin_le (List.mem_map_of_mem _ hp)
      have h6 : listMin p.toas * 86400 ≤ t * 86400 :=
        mul_le_mul_of_nonneg_right (listMin_le ht) (by norm_num)
      unfold gwbStart
      linarith
    · have h5 : listMax p.toas * 86400 ≤ listMax (psr.map (fun p => listMax p.toas * 86400)) :=
        le_listMax (List.mem_map_of_mem _ hp)
      have h6 : t * 86400 ≤ listMax p.toas * 86400 :=
        mul_le_mul_of_nonneg_right (le_listMax ht) (by norm_num)
      unfold gwbStop
      linarith

/-- Concrete single-pulsar input for the Claim C10 witness. -/
noncomputable def psrSingleOne : List Pulsar := [⟨0, 0, [1]⟩]

/-- Claim C10 witness: at a concrete pulsar list and `npts = 2` the
hypotheses of `gwb_epochs_strictly_inside` hold and its conclusion follows;
in particular the single epoch lies strictly inside `(start, stop)`. -/
theorem gwb_epochs_strictly_inside_witness :
    2 ≤ 2 ∧
    ((linspace (gwbStart psrSingleOne) (gwbStop psrSingleOne) 2).getD 0 0 = gwbStart psrSingleOne ∧
     (linspace (gwbStart psrSingleOne) (gwbStop psrSingleOne) 2).getD (2 - 1) 0 = gwbStop psrSingleOne ∧
     ∀ p ∈ psrSingleOne, ∀ t ∈ p.toas,
       gwbStart psrSingleOne < t * 86400 ∧ t * 86400 < gwbStop psrSingleOne) :=
  ⟨le_rfl, gwb_epochs_strictly_inside psrSingleOne 2 le_rfl⟩

end Toasim
